import Mathlib

/-!
Shallow embedding of the catalog front end in `src/app.js` (the current
variant, lines 164-493 of the combined file).  Pure string manipulation is
modelled on `List Char` so that every definition reduces in the kernel;
DOM state (rendered elements, overlay, visibility classes) is modelled as
explicit Lean data; each `fetch` is recorded as an event so that the
fetch behaviour of a render pass is observable.

Conventions used throughout:
* JavaScript strings are Lean `String`s; a missing-or-empty ("falsy")
  string field is modelled as `""`, which is exactly what the source's
  `x || fallback` tests observe.
* `details.Genre` can be a JSON array, a JSON scalar, or absent, so it is
  modelled by the inductive `GenreField` (`Array.isArray` distinguishes
  only the array case).
* `details.Ratings` is optional (`Ratings?.` in the source), so it is
  modelled as `Option (List Rating)`.
-/

/-- `s.split(sep)` for a one-character separator, on the character list:
accumulates the current field and starts a new one at each separator, so a
trailing separator yields a trailing empty field, as in JavaScript. -/
def splitCharAux (sep : Char) : List Char → List Char → List (List Char)
  | [], acc => [acc.reverse]
  | c :: cs, acc =>
    if c = sep then acc.reverse :: splitCharAux sep cs []
    else splitCharAux sep cs (c :: acc)

/-- JavaScript `s.split(sep)` for a one-character separator. -/
def jsSplitChar (s : String) (sep : Char) : List String :=
  (splitCharAux sep s.data []).map String.mk

/-- `s.split(", ")`: the only multi-character split in the source
(`item.dataset.genres?.split(", ")`), specialised to its separator. -/
def splitCommaSpaceAux : List Char → List Char → List (List Char)
  | [], acc => [acc.reverse]
  | ',' :: ' ' :: rest, acc => acc.reverse :: splitCommaSpaceAux rest []
  | c :: rest, acc => splitCommaSpaceAux rest (c :: acc)

/-- JavaScript `s.split(", ")`. -/
def jsSplitCommaSpace (s : String) : List String :=
  (splitCommaSpaceAux s.data []).map String.mk

/-- Whether the first list is an initial segment of the second. -/
def startsWithCL : List Char → List Char → Bool
  | [], _ => true
  | _ :: _, [] => false
  | a :: as, b :: bs => a = b && startsWithCL as bs

/-- Whether `needle` occurs contiguously inside the second list. -/
def containsCL (needle : List Char) : List Char → Bool
  | [] => needle.isEmpty
  | l@(_ :: rest) => startsWithCL needle l || containsCL needle rest

/-- JavaScript `s.includes(sub)`. -/
def jsIncludes (s sub : String) : Bool :=
  containsCL sub.data s.data

/-- JavaScript `s.toLowerCase()` (per-character case folding). -/
def jsToLower (s : String) : String :=
  ⟨s.data.map Char.toLower⟩

/-- JavaScript `s || fallback`: the fallback is taken exactly when the
string is falsy, i.e. empty (which also models an absent field). -/
def jsOr (s fallback : String) : String :=
  if s = "" then fallback else s

/-- JavaScript `array.join(sep)`. -/
def jsJoin (sep : String) : List String → String
  | [] => ""
  | [s] => s
  | s :: rest => s ++ sep ++ jsJoin sep rest

/-- Lexicographic comparison of character lists (JavaScript's default
`Array.prototype.sort()` string order, restricted to the code points the
catalog uses). -/
def lexLeCL : List Char → List Char → Bool
  | [], _ => true
  | _ :: _, [] => false
  | a :: as, b :: bs => if a = b then lexLeCL as bs else decide (a < b)

/-- Lexicographic string order used by `[...genres].sort()`. -/
def jsStrLe (a b : String) : Bool :=
  lexLeCL a.data b.data

/-- `[...genres].sort()`: sort a list of strings lexicographically. -/
def sortStrings (l : List String) : List String :=
  List.insertionSort (fun a b => jsStrLe a b = true) l

/-- `const dataFolder = "data/imdb"` (line 164). -/
def dataFolder : String := "data/imdb"

/-- `fetchMovieDirectories` (lines 170-178) applied to the text of the
tabular index: split on newlines, drop the header row, take field 4 of
each tab-split row (`line.split("\t")[4]`, which is `undefined` — here
`""` — when the row has fewer than five fields), and keep the truthy
(non-empty) identifiers. -/
def fetchMovieDirectories (tsvData : String) : List String :=
  (((jsSplitChar tsvData '\n').drop 1).map
      (fun line => (jsSplitChar line '\t').getD 4 "")).filter
    (fun imdb_id => imdb_id != "")

/-- `fetchMovieDirectories` including the outcome of the `fetch` itself:
the source has no `try`/`catch`, so a rejected fetch propagates out of the
`async` function unchanged, and a resolved fetch hands its body text to the
parsing above. -/
def fetchMovieDirectoriesE : Except String String → Except String (List String)
  | Except.error e => Except.error e
  | Except.ok tsvData => Except.ok (fetchMovieDirectories tsvData)

/-- The `Genre` field of a detail record: a JSON array of strings, some
other (scalar) JSON value, or absent.  `Array.isArray` is true exactly on
the first constructor. -/
inductive GenreField where
  | absent
  | scalar (s : String)
  | arr (gs : List String)
deriving DecidableEq, Repr

/-- `Array.isArray(details.Genre) ? details.Genre : ["Unknown"]`
(line 223). -/
def genresOf : GenreField → List String
  | GenreField.arr gs => gs
  | _ => ["Unknown"]

/-- `Array.isArray(details.Genre) ? details.Genre.join(", ") :
details.Genre || "Unknown"` (line 433, overlay genre text). -/
def genreTextOf : GenreField → String
  | GenreField.arr gs => jsJoin ", " gs
  | GenreField.scalar s => jsOr s "Unknown"
  | GenreField.absent => "Unknown"

/-- One element of the `Ratings` array of a detail record. -/
structure Rating where
  Source : String
  Value : String
deriving DecidableEq, Repr

/-- A per-title detail record (`details.json`), with the fields the code
reads.  String fields use `""` for absent (falsy) values; `Ratings` keeps
its optionality because the source optional-chains on it. -/
structure DetailRecord where
  Title : String
  Year : String
  Genre : GenreField
  Plot : String
  Director : String
  Actors : String
  Runtime : String
  Source : String
  Ratings : Option (List Rating)
deriving DecidableEq, Repr

/-- `details.Ratings?.find(r => r.Source === src)?.Value || "N/A"`
(lines 232, 436-438). -/
def ratingValue (ratings : Option (List Rating)) (src : String) : String :=
  match ratings with
  | none => "N/A"
  | some rs =>
    match rs.find? (fun r => r.Source == src) with
    | none => "N/A"
    | some r => jsOr r.Value "N/A"

/-- The CatalogEntry object pushed onto `allMovies` (lines 226-233). -/
structure Movie where
  imdbId : String
  title : String
  year : String
  genres : String
  poster : String
  imdbRating : String
deriving DecidableEq, Repr

/-- Construction of one `allMovies` element from an identifier and its
detail record (lines 222-234). -/
def mkMovie (imdbId : String) (details : DetailRecord) : Movie :=
  { imdbId := imdbId
    title := details.Title
    year := details.Year
    genres := jsJoin ", " (genresOf details.Genre)
    poster := dataFolder ++ "/" ++ imdbId ++ "/poster.jpg"
    imdbRating := ratingValue details.Ratings "Internet Movie Database" }

/-- A rendered `.movie-item` element: `createGridElement` or
`createListElement` (lines 292-325); both carry the same movie payload. -/
inductive RenderedElem where
  | grid (m : Movie)
  | listRow (m : Movie)
deriving DecidableEq, Repr

/-- The movie payload of a rendered element (its `dataset` and text). -/
def elemMovie : RenderedElem → Movie
  | RenderedElem.grid m => m
  | RenderedElem.listRow m => m

/-- `Set.prototype.add`: append the genre unless already present
(JavaScript `Set` iteration is in insertion order). -/
def insertUnique (acc : List String) (g : String) : List String :=
  if acc.contains g then acc else acc ++ [g]

/-- `uniqueGenres` after the `forEach` loops of lines 222-224: every genre
of every record, first occurrences in source order. -/
def uniqueGenresOf (movieDetailsList : List DetailRecord) : List String :=
  movieDetailsList.foldl (fun acc d => (genresOf d.Genre).foldl insertUnique acc) []

/-- `renderSidebar` (lines 334-345), as the sequence of genre labels it
mounts: the synthetic "All" button first, then `[...genres].sort()`. -/
def renderSidebar (genres : List String) : List String :=
  "All" :: sortStrings genres

/-- The static resources a render pass fetches: the tabular index text,
the genre-icon map, and one detail record per identifier. -/
structure FetchEnv where
  indexText : String
  iconMap : List (String × String)
  details : String → DetailRecord

/-- One network fetch performed by the code. -/
inductive FetchEvent where
  | tsvIndex
  | iconMap
  | detailsOf (imdbId : String)
deriving DecidableEq, Repr

/-- The observable outcome of one `renderMovies` call. -/
structure RenderResult where
  movies : List Movie
  elements : List RenderedElem
  sidebar : List String
  fetches : List FetchEvent
deriving DecidableEq, Repr

/-- `renderMovies(view)` (lines 203-243): fetch the index, the icon map,
and every detail record; build `allMovies` index-paired with the
identifier list; mount one element per movie (grid or list depending on
`view`, order preserved by the batched renderer of lines 251-271); and
build the sidebar labels from the unique genres. -/
def renderMovies (env : FetchEnv) (view : String) : RenderResult :=
  let imdbIds := fetchMovieDirectories env.indexText
  let movieDetailsList := imdbIds.map env.details
  let allMovies := (imdbIds.zip movieDetailsList).map (fun p => mkMovie p.1 p.2)
  { movies := allMovies
    elements := allMovies.map
      (fun m => if view == "grid" then RenderedElem.grid m else RenderedElem.listRow m)
    sidebar := renderSidebar (uniqueGenresOf movieDetailsList)
    fetches := FetchEvent.tsvIndex :: FetchEvent.iconMap :: imdbIds.map FetchEvent.detailsOf }

/-- The `#viewToggle` change handler (lines 465-469):
`renderMovies($(this).prop("checked") ? "grid" : "list")`. -/
def viewToggleRender (env : FetchEnv) (checked : Bool) : RenderResult :=
  renderMovies env (if checked then "grid" else "list")

/-- A rendered `.movie-item` as the filter handlers see it: its `.title`
text, its `dataset.genres` string, and whether it is visible (absence of
the `d-none` class). -/
structure RenderedItem where
  title : String
  genres : String
  visible : Bool
deriving DecidableEq, Repr

/-- `toggleVisibility` (lines 380-382): write the visibility flag. -/
def toggleVisibility (item : RenderedItem) (pred : Bool) : RenderedItem :=
  { item with visible := pred }

/-- `item.dataset.genres?.split(", ")` as used by the genre handler
(line 367); the dataset string is always present on rendered items. -/
def itemGenres (item : RenderedItem) : List String :=
  jsSplitCommaSpace item.genres

/-- The click handler of a sidebar genre button (lines 364-370): for every
rendered item, visible iff the button is "All" or the item's stored genre
list contains the button's genre. -/
def selectGenre (genre : String) (items : List RenderedItem) : List RenderedItem :=
  items.map (fun item =>
    toggleVisibility item (genre == "All" || (itemGenres item).contains genre))

/-- The `#searchInput` input handler (lines 385-393): for every rendered
item, visible iff the lowercased title contains the lowercased query. -/
def applySearch (value : String) (items : List RenderedItem) : List RenderedItem :=
  let query := jsToLower value
  items.map (fun item =>
    toggleVisibility item (jsIncludes (jsToLower item.title) query))

/-- The populated content of the detail overlay (lines 415-449). -/
structure Overlay where
  title : String
  plot : String
  director : String
  actors : String
  year : String
  runtime : String
  genreText : String
  imdbRating : String
  rtRating : String
  metaRating : String
  imdbLink : String
  sourceLabel : String
deriving DecidableEq, Repr

/-- The overlay built for a movie from its freshly fetched record
(lines 400, 415-449). -/
def buildOverlay (env : FetchEnv) (movie : Movie) : Overlay :=
  let details := env.details movie.imdbId
  { title := details.Title
    plot := details.Plot
    director := details.Director
    actors := jsOr details.Actors "N/A"
    year := jsOr details.Year "N/A"
    runtime := jsOr details.Runtime "N/A"
    genreText := genreTextOf details.Genre
    imdbRating := ratingValue details.Ratings "Internet Movie Database"
    rtRating := ratingValue details.Ratings "Rotten Tomatoes"
    metaRating := ratingValue details.Ratings "Metacritic"
    imdbLink := "https://www.imdb.com/title/" ++ movie.imdbId
    sourceLabel := details.Source }

/-- `document.getElementById("movie-modal")` followed by `.remove()`
(lines 403-404): drop the existing overlay if there is one. -/
def removeExistingOverlay : List Overlay → List Overlay
  | [] => []
  | _ :: rest => rest

/-- `showMovieDetails(movie)` (lines 399-455) acting on the overlays
attached to the document body: remove any existing overlay, then append a
new one populated from a fresh detail fetch. -/
def showMovieDetails (env : FetchEnv) (movie : Movie) (overlays : List Overlay) : List Overlay :=
  removeExistingOverlay overlays ++ [buildOverlay env movie]

/-! ## Concrete inputs used by examples, witnesses and counterexamples -/

/-- The tabular index of the spec's example: a header row followed by the
two data rows, the second with an empty identifier field. -/
def exampleTSV : String :=
  "Title\tYear\tFormat\tSource\timdb_id\nTitle\tYear\tFormat\tSource\ttt0000001\nTitle2\tYear2\tFormat2\tSource2\t"

/-- Two rendered items, one Comedy and one Horror, both visible. -/
def exItems : List RenderedItem :=
  [{ title := "Alpha", genres := "Comedy", visible := true },
   { title := "Beta", genres := "Horror", visible := true }]

/-- A detail record whose only genre is Horror. -/
def dHorror : DetailRecord :=
  { Title := "Scary", Year := "1980", Genre := GenreField.arr ["Horror"], Plot := "p",
    Director := "d", Actors := "a", Runtime := "90 min", Source := "shelf", Ratings := none }

/-- A detail record whose only genre is Comedy. -/
def dComedy : DetailRecord :=
  { Title := "Funny", Year := "1990", Genre := GenreField.arr ["Comedy"], Plot := "p",
    Director := "d", Actors := "a", Runtime := "95 min", Source := "shelf", Ratings := none }

/-- A fetch environment with two catalog entries (Horror, then Comedy). -/
def exEnv : FetchEnv :=
  { indexText := "Title\tYear\tFormat\tSource\timdb_id\nScary\t1980\tDVD\tshelf\ttt0000001\nFunny\t1990\tDVD\tshelf\ttt0000002"
    iconMap := []
    details := fun id => if id == "tt0000001" then dHorror else dComedy }

/-- The first catalog entry of `exEnv`. -/
def exMovieX : Movie := mkMovie "tt0000001" dHorror

/-- The second catalog entry of `exEnv`. -/
def exMovieY : Movie := mkMovie "tt0000002" dComedy

/-- A rating whose named source is present but whose value is the empty
(falsy) string. -/
def rtEmpty : Rating := { Source := "Rotten Tomatoes", Value := "" }

/-- A rating with a non-empty value. -/
def mcRating : Rating := { Source := "Metacritic", Value := "82/100" }

/-! ## Helper lemmas -/

/-- The empty string occurs in every string (`s.includes("")` is true). -/
theorem containsCL_nil_true : ∀ l : List Char, containsCL [] l = true
  | [] => rfl
  | _ :: _ => rfl

/-- The search handler with the empty query marks every item visible. -/
theorem applySearch_empty (items : List RenderedItem) :
    applySearch "" items = items.map (fun item => toggleVisibility item true) := by
  show items.map
      (fun item => toggleVisibility item (jsIncludes (jsToLower item.title) (jsToLower ""))) = _
  congr 1
  funext item
  congr 1
  exact containsCL_nil_true _

/-- The search handler recomputes visibility of every item from the title
predicate alone, so any previous genre selection is discarded. -/
theorem applySearch_selectGenre (value genre : String) (items : List RenderedItem) :
    applySearch value (selectGenre genre items) = applySearch value items := by
  unfold applySearch selectGenre
  rw [List.map_map]
  rfl

/-- `lexLeCL` is total. -/
theorem lexLeCL_total : ∀ a b : List Char, lexLeCL a b = true ∨ lexLeCL b a = true := by
  intro a
  induction a with
  | nil => intro b; left; rfl
  | cons x xs ih =>
    intro b
    cases b with
    | nil => right; rfl
    | cons y ys =>
      simp only [lexLeCL]
      by_cases hxy : x = y
      · subst hxy; simp only [if_pos rfl]; exact ih ys
      · have hyx : ¬ y = x := fun h => hxy h.symm
        simp only [if_neg hxy, if_neg hyx]
        rcases lt_trichotomy x y with h | h | h
        · left; exact decide_eq_true h
        · exact absurd h hxy
        · right; exact decide_eq_true h

/-- `lexLeCL` is transitive. -/
theorem lexLeCL_trans : ∀ a b c : List Char,
    lexLeCL a b = true → lexLeCL b c = true → lexLeCL a c = true := by
  intro a
  induction a with
  | nil => intro b c _ _; rfl
  | cons x xs ih =>
    intro b c hab hbc
    cases b with
    | nil => simp [lexLeCL] at hab
    | cons y ys =>
      cases c with
      | nil => simp [lexLeCL] at hbc
      | cons z zs =>
        simp only [lexLeCL] at hab hbc ⊢
        by_cases hxy : x = y
        · subst hxy
          simp only [if_pos rfl] at hab
          by_cases hxz : x = z
          · subst hxz
            simp only [if_pos rfl] at hbc ⊢
            exact ih ys zs hab hbc
          · simp only [if_neg hxz] at hbc ⊢
            exact hbc
        · simp only [if_neg hxy] at hab
          have hxy' : x < y := of_decide_eq_true hab
          by_cases hyz : y = z
          · subst hyz
            simp only [if_neg hxy]
            exact decide_eq_true hxy'
          · simp only [if_neg hyz] at hbc
            have hyz' : y < z := of_decide_eq_true hbc
            have hxz : x < z := lt_trans hxy' hyz'
            simp only [if_neg (ne_of_lt hxz)]
            exact decide_eq_true hxz

instance : IsTotal String (fun a b => jsStrLe a b = true) :=
  ⟨fun a b => lexLeCL_total a.data b.data⟩

instance : IsTrans String (fun a b => jsStrLe a b = true) :=
  ⟨fun a b c => lexLeCL_trans a.data b.data c.data⟩

/-- Membership after a `Set.add` step. -/
theorem mem_insertUnique (acc : List String) (x g : String) :
    g ∈ insertUnique acc x ↔ g ∈ acc ∨ g = x := by
  unfold insertUnique
  by_cases h : acc.contains x
  · rw [if_pos h]
    have hx : x ∈ acc := List.mem_of_elem_eq_true h
    constructor
    · exact Or.inl
    · rintro (hg | rfl)
      · exact hg
      · exact hx
  · rw [if_neg h]
    simp [List.mem_append]

/-- `Set.add` keeps the accumulator duplicate-free. -/
theorem nodup_insertUnique (acc : List String) (x : String) (h : acc.Nodup) :
    (insertUnique acc x).Nodup := by
  unfold insertUnique
  by_cases hc : acc.contains x
  · rw [if_pos hc]; exact h
  · rw [if_neg hc]
    have hx : x ∉ acc := fun hmem => hc (List.elem_eq_true_of_mem hmem)
    simp [List.nodup_append, h, hx]

/-- Membership after folding `Set.add` over a list of genres. -/
theorem mem_foldl_insertUnique (l : List String) :
    ∀ acc g, g ∈ l.foldl insertUnique acc ↔ g ∈ acc ∨ g ∈ l := by
  induction l with
  | nil => intro acc g; simp
  | cons x xs ih =>
    intro acc g
    rw [List.foldl_cons, ih, mem_insertUnique]
    simp only [List.mem_cons]
    tauto

/-- Folding `Set.add` keeps the accumulator duplicate-free. -/
theorem nodup_foldl_insertUnique (l : List String) :
    ∀ acc, acc.Nodup → (l.foldl insertUnique acc).Nodup := by
  induction l with
  | nil => intro acc h; exact h
  | cons x xs ih =>
    intro acc h
    rw [List.foldl_cons]
    exact ih _ (nodup_insertUnique acc x h)

/-- `uniqueGenres` contains a genre iff some record's genre list does. -/
theorem mem_uniqueGenresOf (ds : List DetailRecord) (g : String) :
    g ∈ uniqueGenresOf ds ↔ ∃ d ∈ ds, g ∈ genresOf d.Genre := by
  have key : ∀ (ds : List DetailRecord) (acc : List String),
      g ∈ ds.foldl (fun acc d => (genresOf d.Genre).foldl insertUnique acc) acc ↔
        g ∈ acc ∨ ∃ d ∈ ds, g ∈ genresOf d.Genre := by
    intro ds
    induction ds with
    | nil => intro acc; simp
    | cons d rest ih =>
      intro acc
      rw [List.foldl_cons, ih, mem_foldl_insertUnique]
      simp only [List.mem_cons]
      constructor
      · rintro ((ha | hg) | ⟨d', hd', hg'⟩)
        · exact Or.inl ha
        · exact Or.inr ⟨d, Or.inl rfl, hg⟩
        · exact Or.inr ⟨d', Or.inr hd', hg'⟩
      · rintro (ha | ⟨d', (rfl | hd'), hg'⟩)
        · exact Or.inl (Or.inl ha)
        · exact Or.inl (Or.inr hg')
        · exact Or.inr ⟨d', hd', hg'⟩
  rw [uniqueGenresOf, key ds []]
  simp

/-- `uniqueGenres` is duplicate-free (it models a JavaScript `Set`). -/
theorem nodup_uniqueGenresOf (ds : List DetailRecord) : (uniqueGenresOf ds).Nodup := by
  have key : ∀ (ds : List DetailRecord) (acc : List String), acc.Nodup →
      (ds.foldl (fun acc d => (genresOf d.Genre).foldl insertUnique acc) acc).Nodup := by
    intro ds
    induction ds with
    | nil => intro acc h; exact h
    | cons d rest ih =>
      intro acc h
      rw [List.foldl_cons]
      exact ih _ (nodup_foldl_insertUnique _ _ h)
  exact key ds [] List.nodup_nil

/-- The mounted elements carry exactly the movie list as payload,
whichever view mode is chosen. -/
theorem payload_of_mapped (view : String) (ms : List Movie) :
    (ms.map (fun m =>
      if view == "grid" then RenderedElem.grid m else RenderedElem.listRow m)).map elemMovie
      = ms := by
  rw [List.map_map]
  have hfun : (elemMovie ∘ fun m =>
      if view == "grid" then RenderedElem.grid m else RenderedElem.listRow m) = id := by
    funext m
    by_cases h : (view == "grid") = true
    · simp [Function.comp, h, elemMovie]
    · simp [Function.comp, h, elemMovie]
  rw [hfun, List.map_id]

/-- The payload of the elements of a render pass is its movie list. -/
theorem renderMovies_elements (env : FetchEnv) (view : String) :
    (renderMovies env view).elements.map elemMovie = (renderMovies env view).movies :=
  payload_of_mapped view (renderMovies env view).movies

/-! ## Claims -/

/-- C1 (counterexample): on a catalog with a Comedy item and a Horror
item, selecting genre "Comedy" and then clearing the search query does
NOT leave only the Comedy item visible — so it is false that, after a
genre filter followed by clearing the search, an item is visible iff it
matches the still-active genre selection. -/
theorem c1_and_composition_false :
    ¬ (∀ it ∈ applySearch "" (selectGenre "Comedy" exItems),
        it.visible = (("Comedy" : String) == "All" || (itemGenres it).contains "Comedy")) := by
  decide

/-- C1 (amended): the two filter handlers do not AND-compose; each writes
visibility from its own predicate alone, so the last handler wins.  A
search pass erases any prior genre selection, and clearing the query makes
every rendered item visible (not just those matching the still-active
genre filter). -/
theorem c1_last_filter_wins :
    (∀ value genre items, applySearch value (selectGenre genre items) = applySearch value items)
    ∧ (∀ items, applySearch "" items = items.map (fun item => toggleVisibility item true)) :=
  ⟨fun value genre items => applySearch_selectGenre value genre items,
   fun items => applySearch_empty items⟩

/-- C2: `fetchMovieDirectories` drops the header row of the index, takes
the field at 0-based position 4 of every remaining tab-split row, keeps
exactly the rows whose identifier field is non-empty, preserves row order
(the result is a sublist of the row-by-row field extraction), and on the
spec's two-data-row example returns exactly ["tt0000001"]. -/
theorem c2_listIdentifiers_spec :
    (∀ tsvData : String,
      fetchMovieDirectories tsvData =
        (((jsSplitChar tsvData '\n').drop 1).filter
            (fun line => (jsSplitChar line '\t').getD 4 "" != "")).map
          (fun line => (jsSplitChar line '\t').getD 4 ""))
    ∧ (∀ tsvData : String,
        (fetchMovieDirectories tsvData).Sublist
          (((jsSplitChar tsvData '\n').drop 1).map
            (fun line => (jsSplitChar line '\t').getD 4 "")))
    ∧ fetchMovieDirectories exampleTSV = ["tt0000001"] := by
  refine ⟨?_, ?_, by decide⟩
  · intro tsvData
    unfold fetchMovieDirectories
    rw [List.filter_map]
    rfl
  · intro tsvData
    exact List.filter_sublist _

/-- C3 (counterexample): a detail record whose Genre field is the empty
array yields an empty genre sequence, not the ["Unknown"] sentinel, so
the non-emptiness invariant fails for such an entry. -/
theorem c3_empty_genre_array_cex :
    genresOf (GenreField.arr []) = ([] : List String)
    ∧ genresOf (GenreField.arr []) ≠ ["Unknown"] := by
  decide

/-- C3 (amended): the ["Unknown"] sentinel is substituted exactly when the
Genre field is not an array (absent or scalar); an array-valued Genre is
taken as-is, so the genre sequence of an entry is empty precisely when the
record's Genre is the empty array — the non-emptiness invariant holds for
all other records. -/
theorem c3_genres_fallback_spec :
    genresOf GenreField.absent = ["Unknown"]
    ∧ (∀ s, genresOf (GenreField.scalar s) = ["Unknown"])
    ∧ (∀ gs, genresOf (GenreField.arr gs) = gs)
    ∧ (∀ gf, genresOf gf ≠ [] ↔ gf ≠ GenreField.arr []) := by
  refine ⟨rfl, fun s => rfl, fun gs => rfl, ?_⟩
  intro gf
  cases gf with
  | absent => simp [genresOf]
  | scalar s => simp [genresOf]
  | arr gs =>
    cases gs with
    | nil => simp [genresOf]
    | cons a as => simp [genresOf]

/-- C9: genre selection is history-independent.  Selecting a genre after
any previous genre selection (or after any search) produces exactly the
item list obtained by selecting it from fresh state; the resulting
visibility of each item is its own genre predicate (visible iff the genre
is "All" or the item's stored genre list contains it), and titles and
genre strings are untouched. -/
theorem c9_genre_selection_history_free :
    (∀ g₁ g₂ items, selectGenre g₁ (selectGenre g₂ items) = selectGenre g₁ items)
    ∧ (∀ g value items, selectGenre g (applySearch value items) = selectGenre g items)
    ∧ (∀ g items, (selectGenre g items).map RenderedItem.visible
        = items.map (fun item => g == "All" || (itemGenres item).contains g))
    ∧ (∀ g items, (selectGenre g items).map RenderedItem.title = items.map RenderedItem.title
        ∧ (selectGenre g items).map RenderedItem.genres = items.map RenderedItem.genres) := by
  refine ⟨?_, ?_, ?_, ?_⟩
  · intro g₁ g₂ items
    unfold selectGenre
    rw [List.map_map]
    rfl
  · intro g value items
    unfold selectGenre applySearch
    rw [List.map_map]
    rfl
  · intro g items
    unfold selectGenre
    rw [List.map_map]
    rfl
  · intro g items
    constructor
    · unfold selectGenre
      rw [List.map_map]
      rfl
    · unfold selectGenre
      rw [List.map_map]
      rfl

/-- C10: applying the search with the empty query makes every rendered
element visible regardless of any previously applied genre or search
filter: every title contains the empty string, and the handler writes
visibility from the title predicate alone. -/
theorem c10_empty_query_shows_all :
    (∀ title : String, jsIncludes title "" = true)
    ∧ (∀ items, applySearch "" items = items.map (fun item => toggleVisibility item true))
    ∧ (∀ genre items, applySearch "" (selectGenre genre items)
        = items.map (fun item => toggleVisibility item true)) := by
  refine ⟨?_, fun items => applySearch_empty items, ?_⟩
  · intro title
    exact containsCL_nil_true _
  · intro genre items
    rw [applySearch_selectGenre]
    exact applySearch_empty items

/-- C4 (counterexample): switching the view toggle on a two-entry catalog
re-runs `renderMovies`, which fetches the index, the icon map, and every
per-title detail record again — the fetch list of the toggle-triggered
render is not empty, contradicting "performs no new fetches". -/
theorem c4_view_switch_refetches_cex :
    (viewToggleRender exEnv true).fetches =
      [FetchEvent.tsvIndex, FetchEvent.iconMap,
       FetchEvent.detailsOf "tt0000001", FetchEvent.detailsOf "tt0000002"]
    ∧ (viewToggleRender exEnv true).fetches ≠ [] := by
  refine ⟨by decide, ?_⟩
  intro h
  rw [show (viewToggleRender exEnv true).fetches =
      [FetchEvent.tsvIndex, FetchEvent.iconMap,
       FetchEvent.detailsOf "tt0000001", FetchEvent.detailsOf "tt0000002"] from by decide] at h
  cases h

/-- C4 (amended): switching ViewMode re-runs the full pipeline, performing
one index fetch, one icon-map fetch, and one detail fetch per identifier;
over the same fetched data the entries rendered after the switch are
exactly the entries rendered before it (the view mode changes only the
kind of element mounted, never its movie payload). -/
theorem c4_view_switch_spec :
    ∀ (env : FetchEnv) (checked : Bool) (view₀ : String),
      (viewToggleRender env checked).elements.map elemMovie
        = (renderMovies env view₀).elements.map elemMovie
      ∧ (viewToggleRender env checked).movies = (renderMovies env view₀).movies
      ∧ (viewToggleRender env checked).fetches
        = FetchEvent.tsvIndex :: FetchEvent.iconMap
            :: (fetchMovieDirectories env.indexText).map FetchEvent.detailsOf := by
  intro env checked view₀
  refine ⟨?_, rfl, rfl⟩
  calc (viewToggleRender env checked).elements.map elemMovie
      = (renderMovies env (if checked then "grid" else "list")).elements.map elemMovie := rfl
    _ = (renderMovies env (if checked then "grid" else "list")).movies :=
        renderMovies_elements env (if checked then "grid" else "list")
    _ = (renderMovies env view₀).movies := rfl
    _ = (renderMovies env view₀).elements.map elemMovie :=
        (renderMovies_elements env view₀).symm

/-- C5: for every fetch environment the rendered sidebar is the synthetic
"All" control first, followed by the distinct genre names of all fetched
records (no duplicates, membership exactly the union of the records' genre
sequences) in ascending lexicographic order; on the example catalog with
genres Horror and Comedy the sidebar reads ["All", "Comedy", "Horror"]. -/
theorem c5_sidebar_spec :
    (∀ (env : FetchEnv) (view : String),
      (renderMovies env view).sidebar
        = "All" :: sortStrings
            (uniqueGenresOf ((fetchMovieDirectories env.indexText).map env.details))
      ∧ (renderMovies env view).sidebar.head? = some "All"
      ∧ (renderMovies env view).sidebar.tail.Pairwise (fun a b => jsStrLe a b = true)
      ∧ (renderMovies env view).sidebar.tail.Nodup
      ∧ (∀ g, g ∈ (renderMovies env view).sidebar.tail ↔
          ∃ d ∈ (fetchMovieDirectories env.indexText).map env.details, g ∈ genresOf d.Genre))
    ∧ (renderMovies exEnv "grid").sidebar = ["All", "Comedy", "Horror"] := by
  refine ⟨?_, by decide⟩
  intro env view
  refine ⟨rfl, rfl, ?_, ?_, ?_⟩
  · show (sortStrings
      (uniqueGenresOf ((fetchMovieDirectories env.indexText).map env.details))).Pairwise
        (fun a b => jsStrLe a b = true)
    exact List.sorted_insertionSort _ _
  · show (sortStrings
      (uniqueGenresOf ((fetchMovieDirectories env.indexText).map env.details))).Nodup
    exact (List.perm_insertionSort _ _).nodup_iff.mpr (nodup_uniqueGenresOf _)
  · intro g
    show g ∈ List.insertionSort (fun a b => jsStrLe a b = true)
        (uniqueGenresOf ((fetchMovieDirectories env.indexText).map env.details)) ↔ _
    rw [(List.perm_insertionSort _ _).mem_iff]
    exact mem_uniqueGenresOf _ g

/-- C6: at most one detail overlay exists at a time.  Starting from a
document holding at most one overlay, opening the overlay for entry X and
then for entry Y (without dismissing X) leaves exactly the single overlay
populated from Y's freshly fetched record. -/
theorem c6_single_overlay (env : FetchEnv) (x y : Movie) (overlays : List Overlay)
    (h : overlays.length ≤ 1) :
    showMovieDetails env y (showMovieDetails env x overlays) = [buildOverlay env y] := by
  cases overlays with
  | nil => rfl
  | cons a rest =>
    cases rest with
    | nil => rfl
    | cons b rest₂ =>
      simp only [List.length_cons] at h
      omega

/-- C6 (witness): on the concrete two-entry environment, opening X's
overlay and then Y's from an empty document yields exactly Y's overlay. -/
theorem c6_single_overlay_witness :
    (([] : List Overlay).length ≤ 1)
    ∧ showMovieDetails exEnv exMovieY (showMovieDetails exEnv exMovieX [])
        = [buildOverlay exEnv exMovieY] :=
  ⟨by decide, c6_single_overlay exEnv exMovieX exMovieY [] (by decide)⟩

/-- C7 (counterexample): a record whose Ratings list names "Rotten
Tomatoes" with the empty (falsy) value renders "N/A" for that source even
though the named source is present — so "renders its value if that named
source is present" fails for empty values (the source uses `||`). -/
theorem c7_empty_value_cex :
    (([rtEmpty].map Rating.Source).contains "Rotten Tomatoes" = true)
    ∧ ratingValue (some [rtEmpty]) "Rotten Tomatoes" = "N/A"
    ∧ ratingValue (some [rtEmpty]) "Rotten Tomatoes" ≠ rtEmpty.Value := by
  decide

/-- C7 (amended): each named rating defaults to "N/A" independently: a
missing Ratings field yields "N/A" for all three named sources without
failing the render; a Ratings list in which the named source is not found
yields "N/A"; a found entry renders its value when that value is
non-empty, and "N/A" when the value is the empty (falsy) string. -/
theorem c7_rating_defaults_spec :
    (∀ src, ratingValue none src = "N/A")
    ∧ (∀ rs src, rs.find? (fun r => r.Source == src) = none →
        ratingValue (some rs) src = "N/A")
    ∧ (∀ rs src r₀, rs.find? (fun r => r.Source == src) = some r₀ → r₀.Value ≠ "" →
        ratingValue (some rs) src = r₀.Value)
    ∧ (∀ rs src r₀, rs.find? (fun r => r.Source == src) = some r₀ → r₀.Value = "" →
        ratingValue (some rs) src = "N/A")
    ∧ (ratingValue none "Internet Movie Database" = "N/A"
        ∧ ratingValue none "Rotten Tomatoes" = "N/A"
        ∧ ratingValue none "Metacritic" = "N/A") := by
  refine ⟨fun src => rfl, ?_, ?_, ?_, rfl, rfl, rfl⟩
  · intro rs src h
    show (match rs.find? (fun r => r.Source == src) with
      | none => "N/A"
      | some r => jsOr r.Value "N/A") = "N/A"
    rw [h]
  · intro rs src r₀ h hv
    show (match rs.find? (fun r => r.Source == src) with
      | none => "N/A"
      | some r => jsOr r.Value "N/A") = r₀.Value
    rw [h]
    show jsOr r₀.Value "N/A" = r₀.Value
    unfold jsOr
    rw [if_neg hv]
  · intro rs src r₀ h hv
    show (match rs.find? (fun r => r.Source == src) with
      | none => "N/A"
      | some r => jsOr r.Value "N/A") = "N/A"
    rw [h]
    show jsOr r₀.Value "N/A" = "N/A"
    unfold jsOr
    rw [if_pos hv]

/-- C7 (witness): a present Metacritic rating with a non-empty value is
rendered as that value. -/
theorem c7_rating_defaults_witness :
    ([mcRating].find? (fun r => r.Source == "Metacritic") = some mcRating)
    ∧ ratingValue (some [mcRating]) "Metacritic" = mcRating.Value :=
  ⟨by decide,
   c7_rating_defaults_spec.2.2.1 [mcRating] "Metacritic" mcRating (by decide) (by decide)⟩

/-- C8 (counterexample): when the fetch of the tabular index rejects (the
resource is unavailable at the network level), `fetchMovieDirectories`
propagates the rejection — it does not return the empty sequence. -/
theorem c8_unavailable_propagates_cex :
    fetchMovieDirectoriesE (Except.error "NetworkError when attempting to fetch resource")
      = Except.error "NetworkError when attempting to fetch resource"
    ∧ fetchMovieDirectoriesE (Except.error "NetworkError when attempting to fetch resource")
      ≠ Except.ok [] :=
  ⟨rfl, fun h => Except.noConfusion h⟩

/-- C8 (amended): the function has no error handling, so a rejected index
fetch propagates unchanged (no silent empty result); a resolved fetch
whose body has no valid data rows — e.g. the empty text — parses to the
empty sequence; and no retry exists: every render pass fetches the index
exactly once. -/
theorem c8_fetch_outcome_spec :
    (∀ e : String, fetchMovieDirectoriesE (Except.error e) = Except.error e)
    ∧ (∀ tsvData : String,
        fetchMovieDirectoriesE (Except.ok tsvData) = Except.ok (fetchMovieDirectories tsvData))
    ∧ fetchMovieDirectories "" = []
    ∧ (∀ (env : FetchEnv) (view : String),
        (renderMovies env view).fetches.count FetchEvent.tsvIndex = 1) := by
  refine ⟨fun e => rfl, fun tsvData => rfl, by decide, ?_⟩
  intro env view
  show (FetchEvent.tsvIndex :: FetchEvent.iconMap ::
      (fetchMovieDirectories env.indexText).map FetchEvent.detailsOf).count
        FetchEvent.tsvIndex = 1
  have hz : ((fetchMovieDirectories env.indexText).map FetchEvent.detailsOf).count
      FetchEvent.tsvIndex = 0 := by
    rw [List.count_eq_zero]
    intro hmem
    rcases List.mem_map.mp hmem with ⟨id, _, habs⟩
    cases habs
  rw [List.count_cons_self, List.count_cons_of_ne (by intro hcon; cases hcon), hz]
